import Mathlib

/-!
Verification development for the soroban-cli core (contract invocation and
token creation, sandbox and remote strategies).

The Rust sources `src/invoke.rs`, `src/token/create.rs` and
`src/token/mod.rs` are shallowly embedded below.  Pure functions become
Lean functions; the stateful command drivers become explicit state-passing
functions over an environment record that carries the outcomes of the
external collaborators (snapshot file, Host, RPC transport), together with
the persisted-snapshot byte state and a trace of the Host invocations and
submitted transactions.  Machine integers are `Nat` with explicit
`% 2 ^ 32` (or `% 2 ^ 64`) where wrap-around matters.  Fallible code
returns `Except`/`Option`.
-/

/-- A byte, as used for XDR encodings, hashes, keys and salts. -/
abbrev Byte := Fin 256

/-- Truncate a natural number to a byte (used when serializing words). -/
def byteOf (n : Nat) : Byte := ⟨n % 256, Nat.mod_lt _ (by norm_num)⟩

/-- Big-endian 32-bit word from four bytes (XDR is big-endian throughout). -/
def bytes2word (a b c d : Byte) : Nat :=
  ((a.val * 256 + b.val) * 256 + c.val) * 256 + d.val

/-- Big-endian serialization of a 32-bit word into four bytes. -/
def word2bytes (n : Nat) : List Byte :=
  [byteOf (n / 16777216), byteOf (n / 65536), byteOf (n / 256), byteOf n]

theorem bytes2word_lt (a b c d : Byte) : bytes2word a b c d < 4294967296 := by
  have ha := a.isLt; have hb := b.isLt; have hc := c.isLt; have hd := d.isLt
  unfold bytes2word; omega

theorem word2bytes_bytes2word (a b c d : Byte) :
    word2bytes (bytes2word a b c d) = [a, b, c, d] := by
  have ha := a.isLt; have hb := b.isLt; have hc := c.isLt; have hd := d.isLt
  simp only [word2bytes, bytes2word, byteOf, List.cons.injEq, and_true, Fin.ext_iff]
  omega

theorem word2bytes_length (n : Nat) : (word2bytes n).length = 4 := by
  simp [word2bytes]

/-! ### SHA-256 (FIPS 180-4)

`token/create.rs` hashes the contract-id preimage with `Sha256::digest`
from the `sha2` crate; the hash function is embedded here in full. -/

/-- Reduce modulo `2 ^ 32` (32-bit wrap-around arithmetic). -/
def w32 (n : Nat) : Nat := n % 4294967296

/-- Rotate a 32-bit word right by `r` bits. -/
def rotr32 (r n : Nat) : Nat := w32 ((n >>> r) ||| (n <<< (32 - r)))

/-- SHA-256 big Sigma 0. -/
def bsig0 (n : Nat) : Nat := rotr32 2 n ^^^ rotr32 13 n ^^^ rotr32 22 n

/-- SHA-256 big Sigma 1. -/
def bsig1 (n : Nat) : Nat := rotr32 6 n ^^^ rotr32 11 n ^^^ rotr32 25 n

/-- SHA-256 small sigma 0. -/
def ssig0 (n : Nat) : Nat := rotr32 7 n ^^^ rotr32 18 n ^^^ (n >>> 3)

/-- SHA-256 small sigma 1. -/
def ssig1 (n : Nat) : Nat := rotr32 17 n ^^^ rotr32 19 n ^^^ (n >>> 10)

/-- The 64 SHA-256 round constants (the fractional parts of the cube
roots of the first 64 primes, as 32-bit words, written in decimal). -/
def shaK : List Nat :=
  [1116352408, 1899447441, 3049323471, 3921009573, 961987163, 1508970993,
   2453635748, 2870763221, 3624381080, 310598401, 607225278, 1426881987,
   1925078388, 2162078206, 2614888103, 3248222580, 3835390401, 4022224774,
   264347078, 604807628, 770255983, 1249150122, 1555081692, 1996064986,
   2554220882, 2821834349, 2952996808, 3210313671, 3336571891, 3584528711,
   113926993, 338241895, 666307205, 773529912, 1294757372, 1396182291,
   1695183700, 1986661051, 2177026350, 2456956037, 2730485921, 2820302411,
   3259730800, 3345764771, 3516065817, 3600352804, 4094571909, 275423344,
   430227734, 506948616, 659060556, 883997877, 958139571, 1322822218,
   1537002063, 1747873779, 1955562222, 2024104815, 2227730452, 2361852424,
   2428436474, 2756734187, 3204031479, 3329325298]

/-- The eight SHA-256 working variables. -/
structure Sha256State where
  a : Nat
  b : Nat
  c : Nat
  d : Nat
  e : Nat
  f : Nat
  g : Nat
  h : Nat
  deriving DecidableEq

/-- The SHA-256 initial hash value (fractional parts of the square roots
of the first 8 primes, as 32-bit words, written in decimal). -/
def shaH0 : Sha256State :=
  ⟨1779033703, 3144134277, 1013904242, 2773480762,
   1359893119, 2600822924, 528734635, 1541459225⟩

/-- One SHA-256 compression round; `kw` is the (round constant, schedule word) pair. -/
def shaRound (s : Sha256State) (kw : Nat × Nat) : Sha256State :=
  let ch := (s.e &&& s.f) ^^^ ((0xffffffff ^^^ s.e) &&& s.g)
  let t1 := w32 (s.h + bsig1 s.e + ch + kw.1 + kw.2)
  let mj := (s.a &&& s.b) ^^^ (s.a &&& s.c) ^^^ (s.b &&& s.c)
  let t2 := w32 (bsig0 s.a + mj)
  ⟨w32 (t1 + t2), s.a, s.b, s.c, w32 (s.d + t1), s.e, s.f, s.g⟩

/-- Group a byte string into big-endian 32-bit words. -/
def toWords : List Byte → List Nat
  | a :: b :: c :: d :: rest => bytes2word a b c d :: toWords rest
  | _ => []

/-- Extend a partial message schedule by one word. -/
def scheduleStep (w : List Nat) : List Nat :=
  let n := w.length
  w ++ [w32 (ssig1 (w.getD (n - 2) 0) + w.getD (n - 7) 0 +
             ssig0 (w.getD (n - 15) 0) + w.getD (n - 16) 0)]

/-- Extend the 16 block words to the full 64-word message schedule. -/
def schedule (w : List Nat) : List Nat :=
  (List.range 48).foldl (fun acc _ => scheduleStep acc) w

/-- Compress one 64-byte block into the running hash state. -/
def compressBlock (s : Sha256State) (block : List Byte) : Sha256State :=
  let ws := schedule (toWords block)
  let t := (shaK.zip ws).foldl shaRound s
  ⟨w32 (s.a + t.a), w32 (s.b + t.b), w32 (s.c + t.c), w32 (s.d + t.d),
   w32 (s.e + t.e), w32 (s.f + t.f), w32 (s.g + t.g), w32 (s.h + t.h)⟩

/-- SHA-256 padding: append `0x80`, zero bytes to 56 mod 64, and the
64-bit big-endian bit length. -/
def padMsg (msg : List Byte) : List Byte :=
  let padLen := (119 - msg.length % 64) % 64
  msg ++ (128 : Byte) :: List.replicate padLen (0 : Byte) ++
    word2bytes (msg.length * 8 >>> 32) ++ word2bytes (msg.length * 8)

/-- Split a padded message into 64-byte blocks (fuel-indexed recursion). -/
def chunksAux : Nat → List Byte → List (List Byte)
  | 0, _ => []
  | _, [] => []
  | n + 1, l => l.take 64 :: chunksAux n (l.drop 64)

/-- Split a padded message into its 64-byte blocks. -/
def chunks64 (l : List Byte) : List (List Byte) := chunksAux l.length l

/-- SHA-256 of a byte string, as a 32-byte digest. -/
def sha256 (msg : List Byte) : List Byte :=
  let st := (chunks64 (padMsg msg)).foldl compressBlock shaH0
  word2bytes st.a ++ word2bytes st.b ++ word2bytes st.c ++ word2bytes st.d ++
    word2bytes st.e ++ word2bytes st.f ++ word2bytes st.g ++ word2bytes st.h

theorem sha256_length (msg : List Byte) : (sha256 msg).length = 32 := by
  simp [sha256, word2bytes]

/-! ### The ScVal value model

Model of `soroban_env_host::xdr::ScVal` restricted to the constructors this
program constructs or decodes (`invoke.rs`, `token/create.rs`).  The list
and map payloads are mutual inductives standing for the nested `ScVec` and
`ScMap` object payloads. -/

mutual
inductive ScValM where
  | U63 (n : Nat)
  | U32 (n : Nat)
  | I32 (n : Nat)
  | Static (s : Nat)
  | ObjNone
  | VecObj (es : ScValList)
  | MapObj (es : ScMapList)
  | BytesObj (bs : List Byte)
  | AccountObj (k : List Byte)
  | SymbolV (s : List Byte)
  deriving DecidableEq
inductive ScValList where
  | nil
  | cons (v : ScValM) (tl : ScValList)
  deriving DecidableEq
inductive ScMapList where
  | nil
  | cons (k : ScValM) (v : ScValM) (tl : ScMapList)
  deriving DecidableEq
end

def scValListLength : ScValList → Nat
  | .nil => 0
  | .cons _ tl => 1 + scValListLength tl

def scMapListLength : ScMapList → Nat
  | .nil => 0
  | .cons _ _ tl => 1 + scMapListLength tl

/-- Build a `ScValList` from a Lean list (convenience for the embeddings). -/
def scVec : List ScValM → ScValList
  | [] => .nil
  | v :: vs => .cons v (scVec vs)

/-! ### The XDR codec

Modelled from the spec: the XDR codec (`ReadXdr`/`WriteXdr` from the
external `stellar-xdr` crate, re-exported by `soroban_env_host::xdr`) is
not under `src/`.  Per the spec's glossary, XDR is "the fixed binary
encoding used for all ledger entries, transaction structures, and call
parameters": each union is a 4-byte big-endian discriminant followed by
the payload of the selected arm, fixed opaque data is raw bytes, and
variable opaque data is a 4-byte length followed by the bytes padded with
zeros to a multiple of four.  The decoder is the fragment used for
command-line arguments; it rejects trailing bytes, nonzero padding, and
out-of-range discriminants. -/

mutual
/-- XDR encoding of a value (discriminants as in the source's `ScVal`:
U63 = 0, U32 = 1, I32 = 2, Static = 3, Object = 4, Symbol = 5; object
discriminants Vec = 0, Map = 1, Bytes = 4, AccountId = 7). -/
def scValToXdr : ScValM → List Byte
  | .U63 n => word2bytes 0 ++ word2bytes (n / 4294967296) ++ word2bytes n
  | .U32 n => word2bytes 1 ++ word2bytes n
  | .I32 n => word2bytes 2 ++ word2bytes n
  | .Static s => word2bytes 3 ++ word2bytes s
  | .ObjNone => word2bytes 4 ++ word2bytes 0
  | .VecObj es => word2bytes 4 ++ word2bytes 1 ++ word2bytes 0 ++
      word2bytes (scValListLength es) ++ scValListToXdr es
  | .MapObj es => word2bytes 4 ++ word2bytes 1 ++ word2bytes 1 ++
      word2bytes (scMapListLength es) ++ scMapListToXdr es
  | .BytesObj bs => word2bytes 4 ++ word2bytes 1 ++ word2bytes 4 ++
      word2bytes bs.length ++ bs ++ List.replicate ((4 - bs.length % 4) % 4) (0 : Byte)
  | .AccountObj k => word2bytes 4 ++ word2bytes 1 ++ word2bytes 7 ++
      word2bytes 0 ++ k
  | .SymbolV s => word2bytes 5 ++ word2bytes s.length ++ s ++
      List.replicate ((4 - s.length % 4) % 4) (0 : Byte)
def scValListToXdr : ScValList → List Byte
  | .nil => []
  | .cons v tl => scValToXdr v ++ scValListToXdr tl
def scMapListToXdr : ScMapList → List Byte
  | .nil => []
  | .cons k v tl => scValToXdr k ++ scValToXdr v ++ scMapListToXdr tl
end

/-- Read a big-endian 4-byte word from the front of a byte string. -/
def readWord : List Byte → Option (Nat × List Byte)
  | a :: b :: c :: d :: rest => some (bytes2word a b c d, rest)
  | _ => none

/-- Read a fixed number of raw bytes from the front of a byte string. -/
def readFixed (n : Nat) (bs : List Byte) : Option (List Byte × List Byte) :=
  if n ≤ bs.length then some (bs.take n, bs.drop n) else none

theorem readWord_eq {bs : List Byte} {n : Nat} {rest : List Byte}
    (h : readWord bs = some (n, rest)) :
    bs = word2bytes n ++ rest ∧ n < 4294967296 := by
  rcases bs with _ | ⟨a, _ | ⟨b, _ | ⟨c, _ | ⟨d, rest'⟩⟩⟩⟩ <;> simp [readWord] at h
  obtain ⟨h1, h2⟩ := h
  subst h1; subst h2
  exact ⟨(word2bytes_bytes2word a b c d).symm ▸ rfl, bytes2word_lt a b c d⟩

theorem readFixed_eq {n : Nat} {bs d rest : List Byte}
    (h : readFixed n bs = some (d, rest)) :
    bs = d ++ rest ∧ d.length = n := by
  unfold readFixed at h
  split at h
  · next hle =>
    simp only [Option.some.injEq, Prod.mk.injEq] at h
    obtain ⟨h1, h2⟩ := h
    subst h1; subst h2
    exact ⟨(List.take_append_drop n bs).symm, by simp [List.length_take]; omega⟩
  · exact absurd h (by simp)

/-- XDR decoding of a command-line argument value: the fragment of the
`ScVal` codec covering the non-composite arms.  Decoding consumes the
whole input and validates padding and union discriminants. -/
def scValFromXdr (bs : List Byte) : Option ScValM :=
  match readWord bs with
  | none => none
  | some (disc, r1) =>
    if disc = 0 then
      match readWord r1 with
      | none => none
      | some (hi, r2) =>
        match readWord r2 with
        | none => none
        | some (lo, r3) =>
          if hi < 2147483648 ∧ r3 = [] then some (.U63 (hi * 4294967296 + lo)) else none
    else if disc = 1 then
      match readWord r1 with
      | none => none
      | some (n, r2) => if r2 = [] then some (.U32 n) else none
    else if disc = 2 then
      match readWord r1 with
      | none => none
      | some (n, r2) => if r2 = [] then some (.I32 n) else none
    else if disc = 3 then
      match readWord r1 with
      | none => none
      | some (m, r2) => if m < 4 ∧ r2 = [] then some (.Static m) else none
    else if disc = 4 then
      match readWord r1 with
      | none => none
      | some (flag, r2) =>
        if flag = 0 then
          if r2 = [] then some .ObjNone else none
        else if flag = 1 then
          match readWord r2 with
          | none => none
          | some (objdisc, r3) =>
            if objdisc = 4 then
              match readWord r3 with
              | none => none
              | some (len, r4) =>
                match readFixed len r4 with
                | none => none
                | some (dat, r5) =>
                  if r5 = List.replicate ((4 - len % 4) % 4) (0 : Byte) then
                    some (.BytesObj dat)
                  else none
            else none
        else none
    else if disc = 5 then
      match readWord r1 with
      | none => none
      | some (len, r2) =>
        match readFixed len r2 with
        | none => none
        | some (dat, r3) =>
          if len ≤ 10 ∧ r3 = List.replicate ((4 - len % 4) % 4) (0 : Byte) then
            some (.SymbolV dat)
          else none
    else none
theorem word2bytes_mod (n : Nat) : word2bytes n = word2bytes (n % 4294967296) := by
  simp only [word2bytes, byteOf, List.cons.injEq, and_true, Fin.ext_iff]
  omega

theorem scValFromXdr_to (bs : List Byte) (v : ScValM)
    (h : scValFromXdr bs = some v) : scValToXdr v = bs := by
  unfold scValFromXdr at h
  split at h
  · simp at h
  next disc r1 hw =>
  obtain ⟨hbs, hdlt⟩ := readWord_eq hw
  subst hbs
  split at h
  next h0 =>
    -- U63
    subst h0
    split at h
    · simp at h
    next hi r2 hw2 =>
    obtain ⟨hr1, hhil⟩ := readWord_eq hw2
    split at h
    · simp at h
    next lo r3 hw3 =>
    obtain ⟨hr2, hlol⟩ := readWord_eq hw3
    split at h
    next hcond =>
      obtain ⟨hhi, hr3⟩ := hcond
      simp only [Option.some.injEq] at h
      subst h
      have h1 : (hi * 4294967296 + lo) / 4294967296 = hi := by omega
      have h2 : (hi * 4294967296 + lo) % 4294967296 = lo := by omega
      simp only [scValToXdr, h1]
      rw [word2bytes_mod (hi * 4294967296 + lo), h2, hr1, hr2, hr3]
      simp
    · simp at h
  next h0 =>
  split at h
  next h1 =>
    -- U32
    subst h1
    split at h
    · simp at h
    next n r2 hw2 =>
    obtain ⟨hr1, hnl⟩ := readWord_eq hw2
    split at h
    next hr2 =>
      simp only [Option.some.injEq] at h
      subst h
      simp only [scValToXdr]
      rw [hr1, hr2]
      simp
    · simp at h
  next h1 =>
  split at h
  next h2 =>
    -- I32
    subst h2
    split at h
    · simp at h
    next n r2 hw2 =>
    obtain ⟨hr1, hnl⟩ := readWord_eq hw2
    split at h
    next hr2 =>
      simp only [Option.some.injEq] at h
      subst h
      simp only [scValToXdr]
      rw [hr1, hr2]
      simp
    · simp at h
  next h2 =>
  split at h
  next h3 =>
    -- Static
    subst h3
    split at h
    · simp at h
    next m r2 hw2 =>
    obtain ⟨hr1, hml⟩ := readWord_eq hw2
    split at h
    next hcond =>
      obtain ⟨hm, hr2⟩ := hcond
      simp only [Option.some.injEq] at h
      subst h
      simp only [scValToXdr]
      rw [hr1, hr2]
      simp
    · simp at h
  next h3 =>
  split at h
  next h4 =>
    -- Object
    subst h4
    split at h
    · simp at h
    next flag r2 hw2 =>
    obtain ⟨hr1, hfl⟩ := readWord_eq hw2
    split at h
    next hflag0 =>
      -- ObjNone
      subst hflag0
      split at h
      next hr2 =>
        simp only [Option.some.injEq] at h
        subst h
        simp only [scValToXdr]
        rw [hr1, hr2]
        simp
      · simp at h
    next hflag0 =>
    split at h
    next hflag1 =>
      -- BytesObj
      subst hflag1
      split at h
      · simp at h
      next objdisc r3 hw3 =>
      obtain ⟨hr2, hodl⟩ := readWord_eq hw3
      split at h
      next hod =>
        subst hod
        split at h
        · simp at h
        next len r4 hw4 =>
        obtain ⟨hr3, hlenl⟩ := readWord_eq hw4
        split at h
        · simp at h
        next dat r5 hf =>
        obtain ⟨hr4, hdl⟩ := readFixed_eq hf
        split at h
        next hr5 =>
          simp only [Option.some.injEq] at h
          subst h
          simp only [scValToXdr]
          rw [hdl, hr1, hr2, hr3, hr4, hr5]
          simp
        · simp at h
      · simp at h
    · simp at h
  next h4 =>
  split at h
  next h5 =>
    -- SymbolV
    subst h5
    split at h
    · simp at h
    next len r2 hw2 =>
    obtain ⟨hr1, hlenl⟩ := readWord_eq hw2
    split at h
    · simp at h
    next dat r3 hf =>
    obtain ⟨hr2, hdl⟩ := readFixed_eq hf
    split at h
    next hcond =>
      obtain ⟨hlen, hr3⟩ := hcond
      simp only [Option.some.injEq] at h
      subst h
      simp only [scValToXdr]
      rw [hdl, hr1, hr2, hr3]
      simp
    · simp at h
  next h5 =>
  simp at h

/-! ### Contract specs, argument parsing and the argument marshaler

Embedding of `Cmd::build_host_function_parameters` from `src/invoke.rs`.
The `clap`-provided argument indices are external inputs; the two CLI
argument families arrive as lists already paired with their original
command-line positions (the result of `matches.indices_of(..).zip(..)` in
the source).  The base64 transport of `--arg-xdr` values is external; an
xdr-encoded argument is carried as its decoded byte string. -/

/-- UTF-8 encoding of one character. -/
def utf8Bytes (c : Char) : List Byte :=
  let n := c.toNat
  if n < 0x80 then [byteOf n]
  else if n < 0x800 then
    [byteOf (0xC0 ||| (n >>> 6)), byteOf (0x80 ||| (n &&& 0x3F))]
  else if n < 0x10000 then
    [byteOf (0xE0 ||| (n >>> 12)), byteOf (0x80 ||| ((n >>> 6) &&& 0x3F)),
     byteOf (0x80 ||| (n &&& 0x3F))]
  else
    [byteOf (0xF0 ||| (n >>> 18)), byteOf (0x80 ||| ((n >>> 12) &&& 0x3F)),
     byteOf (0x80 ||| ((n >>> 6) &&& 0x3F)), byteOf (0x80 ||| (n &&& 0x3F))]

/-- Bytes of a string (UTF-8), used for symbols and byte-string payloads;
a Rust `String`'s `len()` is the length of this byte string. -/
def strBytes (s : String) : List Byte := (s.data.map utf8Bytes).flatten

/-- Model of `strval::Error` (the argument parse-error payload). -/
inductive StrValErrorM where
  | InvalidValue
  deriving DecidableEq

/-- Model of `soroban_env_host::xdr::Error`. -/
inductive XdrErrM where
  | DecodeError
  | LengthExceedsMax
  deriving DecidableEq

/-- Model of the `ScSpecTypeDef` fragment the marshaler's parsing rules cover. -/
inductive ScTypeM where
  | U32
  | I32
  | SymbolT
  | BytesT
  | Unsupported
  deriving DecidableEq

/-- One declared function parameter (`ScSpecFunctionInputV0`): name and type. -/
structure SpecInput where
  name : String
  type_ : ScTypeM
  deriving DecidableEq

/-- Model of `ScSpecFunctionV0`: function name and declared inputs. -/
structure ScSpecFunctionV0M where
  name : String
  inputs : List SpecInput
  deriving DecidableEq

/-- Model of `ScSpecEntry`: a function entry or some other spec entry. -/
inductive ScSpecEntryM where
  | FunctionV0 (f : ScSpecFunctionV0M)
  | OtherEntry
  deriving DecidableEq

/-- Locate the spec of the named function among the contract's spec entries
(the `find_map` over `ScSpecEntry::FunctionV0` in the source). -/
def findSpec (spec_entries : List ScSpecEntryM) (function : String) :
    Option ScSpecFunctionV0M :=
  spec_entries.findSome? (fun e =>
    match e with
    | .FunctionV0 f => if f.name = function then some f else none
    | .OtherEntry => none)

/-- Decode one hexadecimal digit. -/
def hexDigit (c : Char) : Option Nat :=
  if '0' ≤ c ∧ c ≤ '9' then some (c.toNat - 48)
  else if 'a' ≤ c ∧ c ≤ 'f' then some (c.toNat - 87)
  else if 'A' ≤ c ∧ c ≤ 'F' then some (c.toNat - 55)
  else none

/-- Decode a hexadecimal character list into bytes (fails on odd length or
non-hex characters). -/
def hexDecodeList : List Char → Option (List Byte)
  | [] => some []
  | c1 :: c2 :: rest =>
    match hexDigit c1, hexDigit c2, hexDecodeList rest with
    | some h, some l, some bs => some (byteOf (h * 16 + l) :: bs)
    | _, _, _ => none
  | _ => none

/-- Decode a hexadecimal string into bytes. -/
def hexDecode (s : String) : Option (List Byte) := hexDecodeList s.data

/-- Modelled from the spec: `utils::contract_id_from_str` is not under
`src/`.  It parses a hex string into exactly 32 bytes, failing on
malformed input (spec section 7: IdentifierError covers a malformed
contract id or salt). -/
def contract_id_from_str (s : String) : Option (List Byte) :=
  match hexDecode s with
  | some bs => if bs.length = 32 then some bs else none
  | none => none

/-- Modelled from the spec: `strval::from_string` is not under `src/`.
Per spec section 4.2 step 4 it decodes a typed-string argument via
type-directed parsing rules for the declared type (numeric, byte-string,
symbol, ...), failing on a type mismatch or malformed literal. -/
def from_string (s : String) (ty : ScTypeM) : Except StrValErrorM ScValM :=
  match ty with
  | .U32 =>
    match s.toNat? with
    | some n => if n < 4294967296 then .ok (.U32 n) else .error .InvalidValue
    | none => .error .InvalidValue
  | .I32 =>
    match s.toInt? with
    | some i =>
      if -2147483648 ≤ i ∧ i < 2147483648 then .ok (.I32 (i % 4294967296).toNat)
      else .error .InvalidValue
    | none => .error .InvalidValue
  | .SymbolT =>
    if (strBytes s).length ≤ 10 then .ok (.SymbolV (strBytes s)) else .error .InvalidValue
  | .BytesT =>
    match hexDecode s with
    | some bs => .ok (.BytesObj bs)
    | none => .error .InvalidValue
  | .Unsupported => .error .InvalidValue

/-- Model of invoke.rs `Error` (payloads kept where a claim mentions them;
opaque external payloads elided). -/
inductive InvokeError where
  | CannotParseArg (arg : String) (error : StrValErrorM)
  | CannotParseXdrArg (arg : List Byte) (error : XdrErrM)
  | CannotAddContractToLedgerEntries (e : XdrErrM)
  | Host
  | CannotReadLedgerFile
  | CannotReadContractFile
  | CannotCommitLedgerFile
  | CannotParseContractId (contract_id : String)
  | FunctionNotFoundInContractSpec (f : String)
  | CannotParseContractSpec
  | UnexpectedArgumentCount (provided : Nat) (expected : Nat) (function : String)
  | FunctionNameTooLong (f : String)
  | MaxNumberOfArgumentsReached (current : Nat) (maximum : Nat)
  | CannotPrintResult
  | Xdr (e : XdrErrM)
  deriving DecidableEq

/-- The tagged argument union from invoke.rs (`enum Arg`): a typed-string
argument or an xdr-encoded argument. -/
inductive Arg where
  | Arg (s : String)
  | ArgXdr (bs : List Byte)
  deriving DecidableEq

/-- Parse one merged argument against its declared parameter: an
xdr-encoded argument is decoded by the XDR codec, ignoring the declared
type; a typed-string argument goes through `from_string` under the
declared type. -/
def parseArg : Arg → SpecInput → Except InvokeError ScValM
  | .ArgXdr bs, _ =>
    match scValFromXdr bs with
    | some v => .ok v
    | none => .error (.CannotParseXdrArg bs .DecodeError)
  | .Arg s, input =>
    match from_string s input.type_ with
    | .ok v => .ok v
    | .error e => .error (.CannotParseArg s e)

/-- Re-assemble the two argument families into the order given on the
command line: tag each family, concatenate, and stable-sort by original
index (the stable `sort_by` on `all_indexed_args` in the source). -/
def mergeIndexedArgs (args : List (Nat × String)) (args_xdr : List (Nat × List Byte)) :
    List (Nat × Arg) :=
  let indexed_args := args.map (fun p => (p.1, Arg.Arg p.2))
  let indexed_args_xdr := args_xdr.map (fun p => (p.1, Arg.ArgXdr p.2))
  (indexed_args ++ indexed_args_xdr).insertionSort (fun x y => x.1 ≤ y.1)

/-- Parse the merged arguments pairwise against the declared inputs,
stopping at the first failure (the `collect::<Result<..>>` in the source). -/
def parseArgs : List ((Nat × Arg) × SpecInput) → Except InvokeError (List ScValM)
  | [] => .ok []
  | (a, inp) :: rest =>
    match parseArg a.2 inp with
    | .error e => .error e
    | .ok v =>
      match parseArgs rest with
      | .error e => .error e
      | .ok vs => .ok (v :: vs)

/-- Embedding of `Cmd::build_host_function_parameters` (src/invoke.rs).
`wasmSpec` is the outcome of `soroban_spec::read::from_wasm` on the
contract bytecode (an external collaborator extracting the embedded spec
table). -/
def build_host_function_parameters (contract_id : List Byte) (function : String)
    (wasmSpec : Except Unit (List ScSpecEntryM))
    (args : List (Nat × String)) (args_xdr : List (Nat × List Byte)) :
    Except InvokeError (List ScValM) :=
  match wasmSpec with
  | .error _ => .error .CannotParseContractSpec
  | .ok spec_entries =>
    match findSpec spec_entries function with
    | none => .error (.FunctionNotFoundInContractSpec function)
    | some spec =>
      let all_indexed_args := mergeIndexedArgs args args_xdr
      if all_indexed_args.length ≠ spec.inputs.length then
        .error (.UnexpectedArgumentCount all_indexed_args.length spec.inputs.length function)
      else
        match parseArgs (all_indexed_args.zip spec.inputs) with
        | .error e => .error e
        | .ok parsed_args =>
          if (strBytes function).length ≤ 10 then
            let complete_args :=
              ScValM.BytesObj contract_id :: ScValM.SymbolV (strBytes function) :: parsed_args
            if complete_args.length ≤ 256000 then .ok complete_args
            else .error (.MaxNumberOfArgumentsReached complete_args.length 256000)
          else .error (.FunctionNameTooLong function)

/-! ### Keys, accounts and contract-id derivation -/

/-- Hex encoding alphabet. -/
def hexChars : List Char := "0123456789abcdef".data

/-- Hex encoding of a byte string (`hex::encode`). -/
def hexEncode (bs : List Byte) : String :=
  String.mk ((bs.map (fun b => [hexChars.getD (b.val / 16) 'x', hexChars.getD (b.val % 16) 'x'])).flatten)

/-- An ed25519 keypair (secret and public key bytes); used only for
signing, never persisted. -/
structure KeypairM where
  secret : List Byte
  public : List Byte
  deriving DecidableEq

/-- Model of `AccountId(PublicKey::PublicKeyTypeEd25519(..))` — the single
public-key variant in use. -/
structure AccountIdM where
  ed25519 : List Byte
  deriving DecidableEq

/-- XDR encoding of an `AccountId`: the `PUBLIC_KEY_TYPE_ED25519 = 0`
union discriminant followed by the 32 raw key bytes. -/
def accountIdXdr (a : AccountIdM) : List Byte := word2bytes 0 ++ a.ed25519

/-- XDR encoding of the `HashIdPreimage::ContractIdFromSourceAccount`
preimage built by `get_contract_id`: the envelope-type union discriminant
for contract-id-from-source-account (value 11 in the source's XDR
definitions), then the `source_account`, then the 32-byte salt. -/
def preimage_xdr (source_account : AccountIdM) (salt : List Byte) : List Byte :=
  word2bytes 11 ++ accountIdXdr source_account ++ salt

/-- Embedding of `get_contract_id` (src/token/create.rs): the SHA-256 hash
of the XDR-encoded contract-id-from-source-account preimage.  The source
returns `Result` only because `to_xdr` is fallible in general; on this
fixed-shape preimage serialization cannot fail, so the embedding is the
total function. -/
def get_contract_id (salt : List Byte) (source_account : AccountIdM) : List Byte :=
  sha256 (preimage_xdr source_account salt)

/-! ### Transactions, signing, and the transaction builders -/

/-- The two host-function kinds this program invokes. -/
inductive HostFunctionM where
  | InvokeContract
  | CreateTokenContractWithSourceAccount
  deriving DecidableEq

/-- Model of `LedgerKey` restricted to the `ContractData` arm in use. -/
inductive LedgerKeyM where
  | ContractData (contract_id : List Byte) (key : ScValM)
  deriving DecidableEq

/-- The declared read-only / read-write ledger key sets of a call. -/
structure LedgerFootprintM where
  read_only : List LedgerKeyM
  read_write : List LedgerKeyM
  deriving DecidableEq

/-- Model of `InvokeHostFunctionOp`. -/
structure InvokeHostFunctionOpM where
  function : HostFunctionM
  parameters : List ScValM
  footprint : LedgerFootprintM
  deriving DecidableEq

/-- Model of `OperationBody` restricted to the arm in use. -/
inductive OperationBodyM where
  | InvokeHostFunction (op : InvokeHostFunctionOpM)
  deriving DecidableEq

/-- Model of `Operation`. -/
structure OperationM where
  source_account : Option AccountIdM
  body : OperationBodyM
  deriving DecidableEq

/-- Model of `MuxedAccount` restricted to the `Ed25519` arm in use. -/
inductive MuxedAccountM where
  | Ed25519 (k : List Byte)
  deriving DecidableEq

/-- Model of `Preconditions` (only `None` is used). -/
inductive PreconditionsM where
  | None
  deriving DecidableEq

/-- Model of `Memo` (only `None` is used). -/
inductive MemoM where
  | None
  deriving DecidableEq

/-- Model of `TransactionExt` (only `V0` is used). -/
inductive TransactionExtM where
  | V0
  deriving DecidableEq

/-- Model of `Transaction`. -/
structure TransactionM where
  source_account : MuxedAccountM
  fee : Nat
  seq_num : Int
  cond : PreconditionsM
  memo : MemoM
  operations : List OperationM
  ext : TransactionExtM
  deriving DecidableEq

/-- An ed25519 signature over a network-separated transaction payload.
Modelled from the spec: the ed25519 primitive is an external collaborator
and signing is deterministic in this usage (spec section 4.4), so a
signature is represented by the data that determines it — the signing
keypair, the network passphrase mixed into the payload, and the signed
transaction. -/
structure SignatureM where
  key : KeypairM
  network_passphrase : String
  payload : TransactionM
  deriving DecidableEq

/-- A signed transaction envelope. -/
structure TransactionEnvelopeM where
  tx : TransactionM
  signatures : List SignatureM
  deriving DecidableEq

/-- Modelled from the spec: `utils::sign_transaction` is not under `src/`.
Per spec section 4.4 it hashes the transaction together with the network
passphrase (domain separation) and signs the payload with ed25519,
attaching the one signature to produce the signed envelope. -/
def sign_transaction (key : KeypairM) (tx : TransactionM) (network_passphrase : String) :
    TransactionEnvelopeM :=
  ⟨tx, [⟨key, network_passphrase, tx⟩]⟩

/-- The checked conversion of an operations list into the transaction's
bounded operations vector (`vec![op].try_into()`, maximum 100). -/
def operationsTryInto (ops : List OperationM) : Except XdrErrM (List OperationM) :=
  if ops.length ≤ 100 then .ok ops else .error .LengthExceedsMax

/-- Embedding of `build_invoke_contract_tx` (src/invoke.rs). -/
def build_invoke_contract_tx (parameters : List ScValM) (footprint : Option LedgerFootprintM)
    (sequence : Int) (fee : Nat) (network_passphrase : String) (key : KeypairM) :
    Except InvokeError TransactionEnvelopeM :=
  let final_footprint := footprint.getD ⟨[], []⟩
  let op : OperationM := ⟨none, .InvokeHostFunction ⟨.InvokeContract, parameters, final_footprint⟩⟩
  match operationsTryInto [op] with
  | .error e => .error (.Xdr e)
  | .ok ops =>
    .ok (sign_transaction key ⟨.Ed25519 key.public, fee, sequence, .None, .None, ops, .V0⟩
      network_passphrase)

/-- Model of token/create.rs `Error` (opaque external payloads elided). -/
inductive CreateError where
  | CannotReadLedgerFile
  | CannotCommitLedgerFile
  | CannotParsePrivateKey
  | CannotParseSalt (salt : String)
  | Host
  | InvalidAssetCode (asset : String)
  | ParseIntError
  | Client
  | TryFromSliceError
  | Xdr (e : XdrErrM)
  deriving DecidableEq

/-- Embedding of `build_tx` (src/token/create.rs). -/
def build_tx (op : OperationM) (sequence : Int) (fee : Nat) (network_passphrase : String)
    (key : KeypairM) : Except CreateError TransactionEnvelopeM :=
  match operationsTryInto [op] with
  | .error e => .error (.Xdr e)
  | .ok ops =>
    .ok (sign_transaction key ⟨.Ed25519 key.public, fee, sequence, .None, .None, ops, .V0⟩
      network_passphrase)

/-- The checked conversion of raw bytes into a bounded XDR byte vector
(`BytesM`, maximum 256000). -/
def bytesMTryInto (bs : List Byte) : Except XdrErrM (List Byte) :=
  if bs.length ≤ 256000 then .ok bs else .error .LengthExceedsMax

/-- Embedding of `build_create_token_op` (src/token/create.rs): the
create-contract operation, whose read-write footprint is the contract-code
key of the derived contract id (`ScStatic::LedgerKeyContractCode` = 3). -/
def build_create_token_op (contract_id : List Byte) (salt : List Byte) :
    Except CreateError OperationM :=
  let lk := LedgerKeyM.ContractData contract_id (.Static 3)
  match bytesMTryInto salt with
  | .error e => .error (.Xdr e)
  | .ok sb =>
    .ok ⟨none, .InvokeHostFunction
      ⟨.CreateTokenContractWithSourceAccount, [.BytesObj sb], ⟨[], [lk]⟩⟩⟩

/-- Embedding of `init_parameters` (src/token/create.rs): contract id,
the "init" method symbol, the admin identifier vector, and the token
metadata map.  `ScMap::sorted_from` sorts entries by key; the keys
"decimals" < "name" < "symbol" are already in sorted order, so the map is
written directly in that order. -/
def init_parameters (contract_id : List Byte) (admin : AccountIdM)
    (name symbol : String) (decimals : Nat) : List ScValM :=
  [ .BytesObj contract_id,
    .SymbolV (strBytes "init"),
    .VecObj (scVec [.SymbolV (strBytes "Account"), .AccountObj admin.ed25519]),
    .MapObj (.cons (.SymbolV (strBytes "decimals")) (.U32 decimals)
            (.cons (.SymbolV (strBytes "name")) (.BytesObj (strBytes name))
            (.cons (.SymbolV (strBytes "symbol")) (.BytesObj (strBytes symbol)) .nil))) ]

/-- Embedding of `build_init_op` (src/token/create.rs): the initialize
operation, whose read-write footprint is the contract's "Admin" and
"Metadata" data keys. -/
def build_init_op (contract_id : List Byte) (parameters : List ScValM) :
    Except CreateError OperationM :=
  .ok ⟨none, .InvokeHostFunction
    ⟨.InvokeContract, parameters,
      ⟨[], [ .ContractData contract_id (.SymbolV (strBytes "Admin")),
             .ContractData contract_id (.SymbolV (strBytes "Metadata"))]⟩⟩⟩

/-! ### The sandbox execution strategy

The persisted ledger snapshot is carried as the raw byte contents of the
ledger file.  The external collaborators (snapshot parser, `fs::read`,
the Host, the strval renderer) are carried in an environment record
holding each call's outcome; embeddings also return the trace of Host
invocations attempted, in order. -/

/-- Ledger metadata of a snapshot (sequence number and timestamp; the
further network parameters play no role in the embedded code paths). -/
structure LedgerInfoM where
  sequence_number : Nat
  timestamp : Nat
  deriving DecidableEq

/-- The snapshot's ledger key → ledger entry mapping. -/
abbrev LedgerEntriesM := List (LedgerKeyM × ScValM)

/-- Modelled from the spec: `utils::add_contract_to_ledger_entries` is not
under `src/`.  It stores the contract bytecode under the contract's
contract-code key, subject to the XDR byte-vector bound. -/
def add_contract_to_ledger_entries (entries : LedgerEntriesM) (contract_id : List Byte)
    (contract : List Byte) : Except XdrErrM LedgerEntriesM :=
  if contract.length ≤ 256000 then
    .ok ((LedgerKeyM.ContractData contract_id (.Static 3), ScValM.BytesObj contract) :: entries)
  else .error .LengthExceedsMax

/-- Modelled from the spec: `utils::get_contract_wasm_from_storage` is not
under `src/`.  It reads the contract-code entry for the contract id from
the storage built over the snapshot. -/
def get_contract_wasm_from_storage (entries : LedgerEntriesM) (contract_id : List Byte) :
    Option (List Byte) :=
  entries.findSome? (fun e =>
    match e with
    | (.ContractData cid (.Static 3), .BytesObj bs) =>
      if cid = contract_id then some bs else none
    | _ => none)

/-- Modelled from the spec: `snapshot::commit` is not under `src/`.  On a
successful commit the snapshot file is replaced wholesale with a
serialization of the advanced ledger metadata, the base entries and the
post-execution storage map (spec section 6); the write is modelled as
atomic. -/
def serializeSnapshot (info : LedgerInfoM) (entries storage_map : LedgerEntriesM) : List Byte :=
  word2bytes info.sequence_number ++ word2bytes info.timestamp ++
    word2bytes entries.length ++ word2bytes storage_map.length ++
    (storage_map.map (fun e => scValToXdr e.2)).flatten

instance exceptDecEq {ε α : Type} [DecidableEq ε] [DecidableEq α] :
    DecidableEq (Except ε α) := fun a b =>
  match a, b with
  | .ok x, .ok y =>
    if h : x = y then isTrue (by rw [h]) else isFalse (by intro hh; cases hh; exact h rfl)
  | .error x, .error y =>
    if h : x = y then isTrue (by rw [h]) else isFalse (by intro hh; cases hh; exact h rfl)
  | .ok _, .error _ => isFalse (by intro hh; cases hh)
  | .error _, .ok _ => isFalse (by intro hh; cases hh)

/-- The fields of invoke.rs `Cmd` that `run_in_sandbox` reads (`wasm` is
whether a `--wasm` path was supplied; the two argument families carry
their original command-line indices). -/
structure InvokeCmd where
  account_id : List Byte
  wasm : Bool
  function : String
  args : List (Nat × String)
  args_xdr : List (Nat × List Byte)
  deriving DecidableEq

/-- Outcomes of the external collaborators consulted by invoke.rs
`run_in_sandbox`: snapshot read, contract-file read, spec extraction from
the bytecode, the Host invocation, result rendering, and `try_finish`. -/
structure InvokeSandboxEnv where
  readResult : Option (LedgerInfoM × LedgerEntriesM)
  wasmRead : Option (List Byte)
  wasmSpec : Except Unit (List ScSpecEntryM)
  invokeResult : Option ScValM
  renderResult : Option String
  finishResult : Option LedgerEntriesM
  deriving DecidableEq

/-- Result of a sandbox run: the command's result, the snapshot file's
byte contents afterwards, and the Host invocations attempted. -/
structure SandboxOutcome where
  result : Except InvokeError String
  file : List Byte
  calls : List (HostFunctionM × List ScValM)
  deriving DecidableEq

/-- Embedding of invoke.rs `Cmd::run_in_sandbox`: read the snapshot,
optionally deploy the supplied contract file, fetch the bytecode, marshal
the arguments, invoke the Host, render the result, finish, and only then
overwrite the snapshot file wholesale. -/
def invoke_run_in_sandbox (cmd : InvokeCmd) (contract_id : List Byte)
    (env : InvokeSandboxEnv) (file : List Byte) : SandboxOutcome :=
  match env.readResult with
  | none => ⟨.error .CannotReadLedgerFile, file, []⟩
  | some state =>
    let entriesStep : Except InvokeError LedgerEntriesM :=
      if cmd.wasm then
        match env.wasmRead with
        | none => .error .CannotReadContractFile
        | some contract =>
          match add_contract_to_ledger_entries state.2 contract_id contract with
          | .error e => .error (.CannotAddContractToLedgerEntries e)
          | .ok es => .ok es
      else .ok state.2
    match entriesStep with
    | .error e => ⟨.error e, file, []⟩
    | .ok entries =>
      match get_contract_wasm_from_storage entries contract_id with
      | none => ⟨.error .Host, file, []⟩
      | some _ =>
        let ledger_info : LedgerInfoM := ⟨state.1.sequence_number + 1, state.1.timestamp + 5⟩
        match build_host_function_parameters contract_id cmd.function env.wasmSpec
            cmd.args cmd.args_xdr with
        | .error e => ⟨.error e, file, []⟩
        | .ok host_function_params =>
          let calls1 := [(HostFunctionM.InvokeContract, host_function_params)]
          match env.invokeResult with
          | none => ⟨.error .Host, file, calls1⟩
          | some _ =>
            match env.renderResult with
            | none => ⟨.error .CannotPrintResult, file, calls1⟩
            | some res_str =>
              match env.finishResult with
              | none => ⟨.error .Host, file, calls1⟩
              | some storage_map =>
                ⟨.ok res_str, serializeSnapshot ledger_info state.2 storage_map, calls1⟩

/-- The all-zero account sentinel: the strkey
GAAAAAAAAAAAAAAAAAAAAAAAAAAAAAAAAAAAAAAAAAAAAAAAAAAAAWHF decodes to the
all-zero ed25519 public key (strkey decoding is external; the spec's
design notes call this the zero-filled sentinel). -/
def zeroAccount : List Byte := List.replicate 32 0

/-- Modelled from the spec: `utils::vec_to_hash` is not under `src/`.  It
renders the Host's returned contract id (a 32-byte byte-string value) as
a hex string, failing on any other shape. -/
def vec_to_hash (res : ScValM) : Except XdrErrM String :=
  match res with
  | .BytesObj bs => if bs.length = 32 then .ok (hexEncode bs) else .error .DecodeError
  | _ => .error .DecodeError

/-- Outcomes of the external collaborators consulted by token/create.rs
`run_in_sandbox`: snapshot read, the two Host invocations, `try_finish`. -/
structure TokenSandboxEnv where
  readResult : Option (LedgerInfoM × LedgerEntriesM)
  invoke1Result : Option ScValM
  invoke2Result : Option ScValM
  finishResult : Option LedgerEntriesM
  deriving DecidableEq

/-- Result of a token-create sandbox run; `adminUsed` is the admin account
the strategy settled on. -/
structure TokenSandboxOutcome where
  result : Except CreateError String
  file : List Byte
  calls : List (HostFunctionM × List ScValM)
  adminUsed : AccountIdM
  deriving DecidableEq

/-- Embedding of token/create.rs `Cmd::run_in_sandbox`: default the admin
to the all-zero sentinel, read the snapshot, invoke the create-token host
function with the salt verbatim, derive the contract id, invoke the
initializer, finish, and only then overwrite the snapshot file wholesale. -/
def token_create_run_in_sandbox (salt : List Byte) (admin_param : Option (List Byte))
    (name symbol : String) (decimal : Nat) (env : TokenSandboxEnv) (file : List Byte) :
    TokenSandboxOutcome :=
  let admin : AccountIdM := ⟨admin_param.getD zeroAccount⟩
  match env.readResult with
  | none => ⟨.error .CannotReadLedgerFile, file, [], admin⟩
  | some state =>
    let ledger_info : LedgerInfoM := ⟨state.1.sequence_number + 1, state.1.timestamp + 5⟩
    let calls1 := [(HostFunctionM.CreateTokenContractWithSourceAccount, [ScValM.BytesObj salt])]
    match env.invoke1Result with
    | none => ⟨.error .Host, file, calls1, admin⟩
    | some res =>
      match vec_to_hash res with
      | .error e => ⟨.error (.Xdr e), file, calls1, admin⟩
      | .ok res_str =>
        let contract_id := get_contract_id salt admin
        let calls2 := calls1 ++
          [(HostFunctionM.InvokeContract, init_parameters contract_id admin name symbol decimal)]
        match env.invoke2Result with
        | none => ⟨.error .Host, file, calls2, admin⟩
        | some _ =>
          match env.finishResult with
          | none => ⟨.error .Host, file, calls2, admin⟩
          | some storage_map =>
            ⟨.ok res_str, serializeSnapshot ledger_info state.2 storage_map, calls2, admin⟩

/-! ### The remote execution strategy for token creation -/

/-- Outcomes of the external collaborators consulted by token/create.rs
`run_against_rpc_server`: secret-key parsing, the thread-local random
salt, the account's current sequence number (lookup plus parse), and the
two submission outcomes. -/
structure TokenRpcEnv where
  keyParse : Option KeypairM
  rngSalt : List Byte
  sequence : Option Int
  send1Ok : Bool
  send2Ok : Bool
  deriving DecidableEq

/-- Result of a token-create remote run: the command's result, the
transaction envelopes submitted in order, the salt actually used, and the
admin account the strategy settled on. -/
structure TokenRpcOutcome where
  result : Except CreateError String
  sentTxs : List TransactionEnvelopeM
  saltUsed : List Byte
  adminUsed : AccountIdM
  deriving DecidableEq

/-- Embedding of token/create.rs `Cmd::run_against_rpc_server`: parse the
key, replace an all-zero salt by a random one, default the admin to the
signer's public key, fetch the sequence number once, then build, sign and
submit the create transaction at sequence N+1 and the initialize
transaction at sequence N+2. -/
def token_create_run_against_rpc_server (salt : List Byte) (admin : Option (List Byte))
    (name symbol : String) (decimal : Nat) (network_passphrase : String)
    (env : TokenRpcEnv) : TokenRpcOutcome :=
  match env.keyParse with
  | none => ⟨.error .CannotParsePrivateKey, [], salt, ⟨[]⟩⟩
  | some key =>
    let salt_val := if salt = List.replicate 32 (0 : Byte) then env.rngSalt else salt
    let admin_key : AccountIdM := ⟨admin.getD key.public⟩
    match env.sequence with
    | none => ⟨.error .Client, [], salt_val, admin_key⟩
    | some sequence =>
      let contract_id := get_contract_id salt_val admin_key
      match build_create_token_op contract_id salt_val with
      | .error e => ⟨.error e, [], salt_val, admin_key⟩
      | .ok op1 =>
        match build_tx op1 (sequence + 1) 100 network_passphrase key with
        | .error e => ⟨.error e, [], salt_val, admin_key⟩
        | .ok tx1 =>
          if env.send1Ok then
            match build_init_op contract_id
                (init_parameters contract_id admin_key name symbol decimal) with
            | .error e => ⟨.error e, [tx1], salt_val, admin_key⟩
            | .ok op2 =>
              match build_tx op2 (sequence + 2) 100 network_passphrase key with
              | .error e => ⟨.error e, [tx1], salt_val, admin_key⟩
              | .ok tx2 =>
                if env.send2Ok then
                  ⟨.ok (hexEncode contract_id), [tx1, tx2], salt_val, admin_key⟩
                else ⟨.error .Client, [tx1, tx2], salt_val, admin_key⟩
          else ⟨.error .Client, [tx1], salt_val, admin_key⟩

/-! ### The token-create dispatcher -/

/-- The fields of token/create.rs `Cmd` that `run` reads
(`rpc_server_url` is whether an RPC endpoint was supplied). -/
structure TokenCmd where
  admin : Option (List Byte)
  decimal : Nat
  name : String
  symbol : String
  salt : String
  rpc_server_url : Bool
  network_passphrase : String
  deriving DecidableEq

/-- Result of a full token-create run, over both strategies. -/
structure TokenRunOutcome where
  result : Except CreateError String
  file : List Byte
  calls : List (HostFunctionM × List ScValM)
  sentTxs : List TransactionEnvelopeM
  deriving DecidableEq

/-- Embedding of token/create.rs `Cmd::run`: parse the salt hex, reject a
symbol longer than 12 bytes, then dispatch to the remote or the sandbox
strategy. -/
def token_create_run (cmd : TokenCmd) (senv : TokenSandboxEnv) (renv : TokenRpcEnv)
    (file : List Byte) : TokenRunOutcome :=
  match contract_id_from_str cmd.salt with
  | none => ⟨.error (.CannotParseSalt cmd.salt), file, [], []⟩
  | some salt =>
    if (strBytes cmd.symbol).length > 12 then
      ⟨.error (.InvalidAssetCode cmd.symbol), file, [], []⟩
    else if cmd.rpc_server_url then
      let o := token_create_run_against_rpc_server salt cmd.admin cmd.name cmd.symbol
        cmd.decimal cmd.network_passphrase renv
      ⟨o.result, file, [], o.sentTxs⟩
    else
      let o := token_create_run_in_sandbox salt cmd.admin cmd.name cmd.symbol
        cmd.decimal senv file
      ⟨o.result, o.file, o.calls, []⟩

/-! ### Claim theorems -/

/-- Whether an `Except` result is a success. -/
def exceptIsOk {ε α : Type} : Except ε α → Bool
  | .ok _ => true
  | .error _ => false

/-- C2: contract-id derivation is a pure deterministic function: for every
(salt, source account) pair it returns exactly 32 bytes, the SHA-256 hash
of the XDR-encoded contract-id-from-source-account preimage, and identical
inputs yield the identical id. -/
theorem claim_C2_contract_id_deterministic (salt : List Byte) (acct : AccountIdM) :
    (get_contract_id salt acct).length = 32 ∧
    get_contract_id salt acct = sha256 (preimage_xdr acct salt) ∧
    (∀ salt2 acct2, salt2 = salt → acct2 = acct →
      get_contract_id salt2 acct2 = get_contract_id salt acct) := by
  refine ⟨sha256_length _, rfl, ?_⟩
  intro salt2 acct2 hs ha
  rw [hs, ha]

/-- C2 witness: deriving the id twice with the all-zero salt and the same
account yields the same 32-byte id both times. -/
theorem claim_C2_contract_id_deterministic_witness :
    (get_contract_id (List.replicate 32 0) ⟨zeroAccount⟩).length = 32 ∧
    get_contract_id (List.replicate 32 0) ⟨zeroAccount⟩ =
      get_contract_id (List.replicate 32 0) ⟨zeroAccount⟩ :=
  ⟨(claim_C2_contract_id_deterministic (List.replicate 32 0) ⟨zeroAccount⟩).1,
   (claim_C2_contract_id_deterministic (List.replicate 32 0) ⟨zeroAccount⟩).2.2
     (List.replicate 32 0) ⟨zeroAccount⟩ rfl rfl⟩

/-- C9: every xdr-encoded argument the marshaler successfully decodes
re-encodes to exactly the original bytes. -/
theorem claim_C9_xdr_roundtrip (bs : List Byte) (inp : SpecInput) (v : ScValM)
    (h : parseArg (.ArgXdr bs) inp = .ok v) : scValToXdr v = bs := by
  simp only [parseArg] at h
  cases hd : scValFromXdr bs with
  | none => rw [hd] at h; exact absurd h (by simp)
  | some w =>
    rw [hd] at h
    simp only [Except.ok.injEq] at h
    subst h
    exact scValFromXdr_to bs w hd

/-- C9 witness: a concrete xdr-encoded argument (the U32 value 5) decodes
through the marshaler and re-encodes to the original bytes. -/
theorem claim_C9_xdr_roundtrip_witness :
    scValToXdr (ScValM.U32 5) = [0, 0, 0, 1, 0, 0, 0, 5] :=
  claim_C9_xdr_roundtrip [0, 0, 0, 1, 0, 0, 0, 5] ⟨"x", .U32⟩ (ScValM.U32 5) (by decide)

/-- C5: both transaction builders produce a transaction whose source
account is the signing keypair's public key, with the given fee and
sequence number, no preconditions, no memo, exactly the supplied
operations in caller order and the V0 extension marker, signed with the
keypair and the network passphrase. -/
theorem claim_C5_transaction_shape (parameters : List ScValM)
    (footprint : Option LedgerFootprintM) (sequence : Int) (fee : Nat)
    (network_passphrase : String) (key : KeypairM) (op : OperationM) (sequence2 : Int)
    (fee2 : Nat) (network_passphrase2 : String) (key2 : KeypairM) :
    build_invoke_contract_tx parameters footprint sequence fee network_passphrase key =
      .ok (sign_transaction key
        ⟨.Ed25519 key.public, fee, sequence, .None, .None,
         [⟨none, .InvokeHostFunction ⟨.InvokeContract, parameters, footprint.getD ⟨[], []⟩⟩⟩],
         .V0⟩ network_passphrase) ∧
    build_tx op sequence2 fee2 network_passphrase2 key2 =
      .ok (sign_transaction key2
        ⟨.Ed25519 key2.public, fee2, sequence2, .None, .None, [op], .V0⟩
        network_passphrase2) := by
  constructor <;> simp [build_invoke_contract_tx, build_tx, operationsTryInto]

/-- The merged argument list has one element per supplied argument of
either family. -/
theorem mergeIndexedArgs_length (args : List (Nat × String)) (args_xdr : List (Nat × List Byte)) :
    (mergeIndexedArgs args args_xdr).length = args.length + args_xdr.length := by
  unfold mergeIndexedArgs
  rw [(List.perm_insertionSort _ _).length_eq]
  simp

/-- A marshaling failure aborts the sandbox invocation before any Host
invocation is attempted. -/
theorem invoke_sandbox_no_calls_of_build_error (cmd : InvokeCmd) (cid : List Byte)
    (env : InvokeSandboxEnv) (file : List Byte) (e : InvokeError)
    (hb : build_host_function_parameters cid cmd.function env.wasmSpec cmd.args cmd.args_xdr =
      .error e) :
    (invoke_run_in_sandbox cmd cid env file).calls = [] := by
  unfold invoke_run_in_sandbox
  repeat' split
  all_goals simp_all
  all_goals (split <;> rfl)

/-- C3: whenever the combined supplied-argument count differs from the
declared parameter count of the located function spec, marshaling fails
with UnexpectedArgumentCount carrying the provided count, the expected
count and the function's name; and a marshaling failure means no Host
invocation is attempted. -/
theorem claim_C3_argument_count_mismatch (contract_id : List Byte) (function : String)
    (spec_entries : List ScSpecEntryM) (spec : ScSpecFunctionV0M)
    (args : List (Nat × String)) (args_xdr : List (Nat × List Byte))
    (hfind : findSpec spec_entries function = some spec)
    (hcount : args.length + args_xdr.length ≠ spec.inputs.length) :
    build_host_function_parameters contract_id function (.ok spec_entries) args args_xdr =
      .error (.UnexpectedArgumentCount (args.length + args_xdr.length)
        spec.inputs.length function) ∧
    (∀ (cmd : InvokeCmd) (cid : List Byte) (env : InvokeSandboxEnv) (file : List Byte) e,
      build_host_function_parameters cid cmd.function env.wasmSpec cmd.args cmd.args_xdr =
        .error e →
      (invoke_run_in_sandbox cmd cid env file).calls = []) := by
  constructor
  · simp only [build_host_function_parameters, hfind, mergeIndexedArgs_length]
    rw [if_pos hcount]
  · intro cmd cid env file e hb
    exact invoke_sandbox_no_calls_of_build_error cmd cid env file e hb

/-- C3 witness: a function declaring 2 parameters invoked with 1 supplied
argument fails with UnexpectedArgumentCount, provided 1, expected 2, and
that function's name. -/
theorem claim_C3_argument_count_mismatch_witness :
    build_host_function_parameters (List.replicate 32 0) "transfer"
      (.ok [.FunctionV0 ⟨"transfer", [⟨"a", .U32⟩, ⟨"b", .U32⟩]⟩])
      [(0, "1")] [] =
      .error (.UnexpectedArgumentCount 1 2 "transfer") :=
  (claim_C3_argument_count_mismatch (List.replicate 32 0) "transfer"
    [.FunctionV0 ⟨"transfer", [⟨"a", .U32⟩, ⟨"b", .U32⟩]⟩]
    ⟨"transfer", [⟨"a", .U32⟩, ⟨"b", .U32⟩]⟩
    [(0, "1")] [] (by decide) (by decide)).1

/-- C4: the marshaler merges the two argument families into one sequence
sorted by original command-line position (a permutation of the two tagged
families); an xdr-encoded argument is decoded identically whatever the
declared parameter type, while a typed-string argument is parsed by
`from_string` under its declared type, failing with a parse error. -/
theorem claim_C4_merge_and_parse :
    (∀ (args : List (Nat × String)) (args_xdr : List (Nat × List Byte)),
      (mergeIndexedArgs args args_xdr).Perm
        (args.map (fun p => (p.1, Arg.Arg p.2)) ++
         args_xdr.map (fun p => (p.1, Arg.ArgXdr p.2))) ∧
      List.Pairwise (fun x y : Nat × Arg => x.1 ≤ y.1) (mergeIndexedArgs args args_xdr)) ∧
    (∀ (bs : List Byte) (inp inp2 : SpecInput),
      parseArg (.ArgXdr bs) inp = parseArg (.ArgXdr bs) inp2) ∧
    (∀ (s : String) (inp : SpecInput),
      parseArg (.Arg s) inp =
        match from_string s inp.type_ with
        | .ok v => .ok v
        | .error err => .error (.CannotParseArg s err)) := by
  refine ⟨?_, ?_, ?_⟩
  · intro args args_xdr
    refine ⟨List.perm_insertionSort _ _, ?_⟩
    haveI : IsTotal (Nat × Arg) (fun x y => x.1 ≤ y.1) := ⟨fun a b => Nat.le_total a.1 b.1⟩
    haveI : IsTrans (Nat × Arg) (fun x y => x.1 ≤ y.1) := ⟨fun _ _ _ => Nat.le_trans⟩
    exact List.sorted_insertionSort _ _
  · intro bs inp inp2
    rfl
  · intro s inp
    rfl

/-- C1: for both sandbox commands (contract invoke and token create), any
failure leaves the persisted snapshot file byte-identical to its pre-call
state, and the snapshot file differs afterwards only when the run
succeeded, which requires every Host invocation of the command to have
completed successfully. -/
theorem claim_C1_sandbox_atomicity :
    (∀ (cmd : InvokeCmd) (cid : List Byte) (env : InvokeSandboxEnv) (file : List Byte),
      (exceptIsOk (invoke_run_in_sandbox cmd cid env file).result = false →
        (invoke_run_in_sandbox cmd cid env file).file = file) ∧
      ((invoke_run_in_sandbox cmd cid env file).file ≠ file →
        env.invokeResult.isSome = true ∧
        exceptIsOk (invoke_run_in_sandbox cmd cid env file).result = true)) ∧
    (∀ (salt : List Byte) (admin_param : Option (List Byte)) (name symbol : String)
      (decimal : Nat) (env : TokenSandboxEnv) (file : List Byte),
      (exceptIsOk (token_create_run_in_sandbox salt admin_param name symbol decimal
          env file).result = false →
        (token_create_run_in_sandbox salt admin_param name symbol decimal env file).file = file) ∧
      ((token_create_run_in_sandbox salt admin_param name symbol decimal env file).file ≠ file →
        env.invoke1Result.isSome = true ∧ env.invoke2Result.isSome = true ∧
        exceptIsOk (token_create_run_in_sandbox salt admin_param name symbol decimal
          env file).result = true)) := by
  constructor
  · intro cmd cid env file
    unfold invoke_run_in_sandbox
    repeat' split
    all_goals try simp_all [exceptIsOk]
    all_goals (repeat' split)
    all_goals simp_all [exceptIsOk]
  · intro salt admin_param name symbol decimal env file
    unfold token_create_run_in_sandbox
    repeat' split
    all_goals simp_all [exceptIsOk]

/-- C1 witness: with a failing Host environment the invoke sandbox run
errors and leaves the snapshot file unchanged; with a fully successful
environment the file changes, and the second conjunct yields that the
Host invocation had completed successfully. -/
theorem claim_C1_sandbox_atomicity_witness :
    (exceptIsOk (invoke_run_in_sandbox ⟨[], false, "f", [], []⟩ (List.replicate 32 0)
        ⟨some (⟨0, 0⟩, [(LedgerKeyM.ContractData (List.replicate 32 0) (.Static 3),
            ScValM.BytesObj [])]),
         none, .ok [.FunctionV0 ⟨"f", []⟩], none, none, none⟩ [1, 2, 3]).result = false ∧
      (invoke_run_in_sandbox ⟨[], false, "f", [], []⟩ (List.replicate 32 0)
        ⟨some (⟨0, 0⟩, [(LedgerKeyM.ContractData (List.replicate 32 0) (.Static 3),
            ScValM.BytesObj [])]),
         none, .ok [.FunctionV0 ⟨"f", []⟩], none, none, none⟩ [1, 2, 3]).file = [1, 2, 3]) ∧
    ((invoke_run_in_sandbox ⟨[], false, "f", [], []⟩ (List.replicate 32 0)
        ⟨some (⟨0, 0⟩, [(LedgerKeyM.ContractData (List.replicate 32 0) (.Static 3),
            ScValM.BytesObj [])]),
         none, .ok [.FunctionV0 ⟨"f", []⟩], some .ObjNone, some "ok", some []⟩ []).file ≠ [] ∧
      (⟨some (⟨0, 0⟩, [(LedgerKeyM.ContractData (List.replicate 32 0) (.Static 3),
            ScValM.BytesObj [])]),
         none, .ok [.FunctionV0 ⟨"f", []⟩], some .ObjNone, some "ok",
         some []⟩ : InvokeSandboxEnv).invokeResult.isSome = true) :=
  ⟨⟨by decide,
    ((claim_C1_sandbox_atomicity.1 ⟨[], false, "f", [], []⟩ (List.replicate 32 0)
      ⟨some (⟨0, 0⟩, [(LedgerKeyM.ContractData (List.replicate 32 0) (.Static 3),
          ScValM.BytesObj [])]),
       none, .ok [.FunctionV0 ⟨"f", []⟩], none, none, none⟩ [1, 2, 3]).1 (by decide))⟩,
   ⟨by decide,
    ((claim_C1_sandbox_atomicity.1 ⟨[], false, "f", [], []⟩ (List.replicate 32 0)
      ⟨some (⟨0, 0⟩, [(LedgerKeyM.ContractData (List.replicate 32 0) (.Static 3),
          ScValM.BytesObj [])]),
       none, .ok [.FunctionV0 ⟨"f", []⟩], some .ObjNone, some "ok", some []⟩ []).2
      (by decide)).1⟩⟩

/-- C6: in remote token creation with account sequence number N fetched
once at the start, the create-contract operation is submitted in a
transaction at sequence N+1 and the initialize operation in a separate,
independently built and signed transaction at sequence N+2. -/
theorem claim_C6_remote_sequence_numbers (salt : List Byte) (admin : Option (List Byte))
    (name symbol : String) (decimal : Nat) (network_passphrase : String)
    (env : TokenRpcEnv) (key : KeypairM) (n : Int)
    (hkey : env.keyParse = some key) (hseq : env.sequence = some n)
    (hsl : salt.length = 32) (hrl : env.rngSalt.length = 32)
    (hs1 : env.send1Ok = true) (hs2 : env.send2Ok = true) :
    (token_create_run_against_rpc_server salt admin name symbol decimal
        network_passphrase env).sentTxs =
      [ sign_transaction key
          ⟨.Ed25519 key.public, 100, n + 1, .None, .None,
           [⟨none, .InvokeHostFunction
             ⟨.CreateTokenContractWithSourceAccount,
              [.BytesObj (if salt = List.replicate 32 (0 : Byte) then env.rngSalt else salt)],
              ⟨[], [.ContractData (get_contract_id
                  (if salt = List.replicate 32 (0 : Byte) then env.rngSalt else salt)
                  ⟨admin.getD key.public⟩) (.Static 3)]⟩⟩⟩],
           .V0⟩ network_passphrase,
        sign_transaction key
          ⟨.Ed25519 key.public, 100, n + 2, .None, .None,
           [⟨none, .InvokeHostFunction
             ⟨.InvokeContract,
              init_parameters (get_contract_id
                  (if salt = List.replicate 32 (0 : Byte) then env.rngSalt else salt)
                  ⟨admin.getD key.public⟩) ⟨admin.getD key.public⟩ name symbol decimal,
              ⟨[], [.ContractData (get_contract_id
                      (if salt = List.replicate 32 (0 : Byte) then env.rngSalt else salt)
                      ⟨admin.getD key.public⟩) (.SymbolV (strBytes "Admin")),
                    .ContractData (get_contract_id
                      (if salt = List.replicate 32 (0 : Byte) then env.rngSalt else salt)
                      ⟨admin.getD key.public⟩) (.SymbolV (strBytes "Metadata"))]⟩⟩⟩],
           .V0⟩ network_passphrase ] := by
  have hlen : (if salt = List.replicate 32 (0 : Byte) then env.rngSalt else salt).length ≤ 256000 := by
    split <;> omega
  unfold token_create_run_against_rpc_server
  rw [hkey]
  simp only [hseq, hs1, hs2, build_create_token_op, bytesMTryInto, build_init_op, build_tx,
    operationsTryInto, if_pos hlen]
  simp

/-- C6 witness: with a concrete key, sequence number 5 and successful
sends, the two submitted transactions are at sequences 6 and 7, each
independently signed. -/
theorem claim_C6_remote_sequence_numbers_witness :
    (token_create_run_against_rpc_server (List.replicate 32 1) none "N" "S" 7 "pass"
        ⟨some ⟨[9], [1, 2, 3]⟩, List.replicate 32 7, some 5, true, true⟩).sentTxs =
      [ sign_transaction ⟨[9], [1, 2, 3]⟩
          ⟨.Ed25519 [1, 2, 3], 100, 6, .None, .None,
           [⟨none, .InvokeHostFunction
             ⟨.CreateTokenContractWithSourceAccount,
              [.BytesObj (if List.replicate 32 (1 : Byte) = List.replicate 32 (0 : Byte) then
                  List.replicate 32 7 else List.replicate 32 1)],
              ⟨[], [.ContractData (get_contract_id
                  (if List.replicate 32 (1 : Byte) = List.replicate 32 (0 : Byte) then
                    List.replicate 32 7 else List.replicate 32 1)
                  ⟨[1, 2, 3]⟩) (.Static 3)]⟩⟩⟩],
           .V0⟩ "pass",
        sign_transaction ⟨[9], [1, 2, 3]⟩
          ⟨.Ed25519 [1, 2, 3], 100, 7, .None, .None,
           [⟨none, .InvokeHostFunction
             ⟨.InvokeContract,
              init_parameters (get_contract_id
                  (if List.replicate 32 (1 : Byte) = List.replicate 32 (0 : Byte) then
                    List.replicate 32 7 else List.replicate 32 1)
                  ⟨[1, 2, 3]⟩) ⟨[1, 2, 3]⟩ "N" "S" 7,
              ⟨[], [.ContractData (get_contract_id
                      (if List.replicate 32 (1 : Byte) = List.replicate 32 (0 : Byte) then
                        List.replicate 32 7 else List.replicate 32 1)
                      ⟨[1, 2, 3]⟩) (.SymbolV (strBytes "Admin")),
                    .ContractData (get_contract_id
                      (if List.replicate 32 (1 : Byte) = List.replicate 32 (0 : Byte) then
                        List.replicate 32 7 else List.replicate 32 1)
                      ⟨[1, 2, 3]⟩) (.SymbolV (strBytes "Metadata"))]⟩⟩⟩],
           .V0⟩ "pass" ] :=
  claim_C6_remote_sequence_numbers (List.replicate 32 1) none "N" "S" 7 "pass"
    ⟨some ⟨[9], [1, 2, 3]⟩, List.replicate 32 7, some 5, true, true⟩ ⟨[9], [1, 2, 3]⟩ 5
    rfl rfl (by decide) (by decide) rfl rfl

/-- C7: the remote strategy substitutes the freshly generated random salt
exactly when the caller's salt is the all-zero sentinel; the sandbox
strategy passes the caller's salt verbatim to the create invocation and
to the contract-id derivation feeding the initialize invocation. -/
theorem claim_C7_salt_substitution :
    (∀ (salt : List Byte) (admin : Option (List Byte)) (name symbol : String) (decimal : Nat)
       (network_passphrase : String) (env : TokenRpcEnv) (key : KeypairM),
      env.keyParse = some key →
      (token_create_run_against_rpc_server salt admin name symbol decimal network_passphrase
          env).saltUsed =
        (if salt = List.replicate 32 (0 : Byte) then env.rngSalt else salt)) ∧
    (∀ (salt : List Byte) (admin_param : Option (List Byte)) (name symbol : String)
       (decimal : Nat) (env : TokenSandboxEnv) (file : List Byte)
       (state : LedgerInfoM × LedgerEntriesM),
      env.readResult = some state →
      (token_create_run_in_sandbox salt admin_param name symbol decimal env file).calls.head? =
        some (HostFunctionM.CreateTokenContractWithSourceAccount, [ScValM.BytesObj salt])) ∧
    (∀ (salt : List Byte) (admin_param : Option (List Byte)) (name symbol : String)
       (decimal : Nat) (env : TokenSandboxEnv) (file : List Byte)
       (state : LedgerInfoM × LedgerEntriesM) (res : ScValM) (str : String),
      env.readResult = some state → env.invoke1Result = some res →
      vec_to_hash res = .ok str →
      (token_create_run_in_sandbox salt admin_param name symbol decimal env file).calls =
        [(HostFunctionM.CreateTokenContractWithSourceAccount, [ScValM.BytesObj salt]),
         (HostFunctionM.InvokeContract,
          init_parameters (get_contract_id salt ⟨admin_param.getD zeroAccount⟩)
            ⟨admin_param.getD zeroAccount⟩ name symbol decimal)]) := by
  refine ⟨?_, ?_, ?_⟩
  · intro salt admin name symbol decimal network_passphrase env key hkey
    unfold token_create_run_against_rpc_server
    rw [hkey]
    simp only []
    repeat' split
    all_goals first | rfl | simp_all
  · intro salt admin_param name symbol decimal env file state hread
    unfold token_create_run_in_sandbox
    rw [hread]
    simp only []
    repeat' split
    all_goals first | rfl | simp_all
  · intro salt admin_param name symbol decimal env file state res str hread hinv hhash
    unfold token_create_run_in_sandbox
    rw [hread, hinv]
    simp only []
    repeat' split
    all_goals first | rfl | simp_all

/-- C7 witness: with the all-zero salt, the remote strategy uses the
generated random salt, while the sandbox strategy's create invocation
carries the all-zero salt verbatim. -/
theorem claim_C7_salt_substitution_witness :
    (token_create_run_against_rpc_server (List.replicate 32 0) none "N" "S" 7 "pass"
        ⟨some ⟨[9], [1, 2, 3]⟩, List.replicate 32 7, some 5, true, true⟩).saltUsed =
      (if List.replicate 32 (0 : Byte) = List.replicate 32 (0 : Byte) then
        List.replicate 32 7 else List.replicate 32 0) ∧
    (token_create_run_in_sandbox (List.replicate 32 0) none "N" "S" 7
        ⟨some (⟨0, 0⟩, []), none, none, none⟩ []).calls.head? =
      some (HostFunctionM.CreateTokenContractWithSourceAccount,
        [ScValM.BytesObj (List.replicate 32 0)]) :=
  ⟨claim_C7_salt_substitution.1 (List.replicate 32 0) none "N" "S" 7 "pass"
    ⟨some ⟨[9], [1, 2, 3]⟩, List.replicate 32 7, some 5, true, true⟩ ⟨[9], [1, 2, 3]⟩ rfl,
   claim_C7_salt_substitution.2.1 (List.replicate 32 0) none "N" "S" 7
    ⟨some (⟨0, 0⟩, []), none, none, none⟩ [] (⟨0, 0⟩, []) rfl⟩

/-- C8 counterexample: a request whose symbol has 13 bytes but whose salt
string is malformed fails with CannotParseSalt, not InvalidAssetCode, so
the claim as stated does not hold of every request with an over-long
symbol. -/
theorem claim_C8_invalid_asset_code_counterexample :
    (strBytes "ABCDEFGHIJKLM").length = 13 ∧
    (token_create_run ⟨none, 7, "Name", "ABCDEFGHIJKLM", "zz", false, ""⟩
        ⟨none, none, none, none⟩ ⟨none, [], none, false, false⟩ []).result =
      .error (.CannotParseSalt "zz") := by
  constructor <;> decide

/-- C8 (amended): for every token-creation request whose salt string
parses and whose symbol is longer than 12 bytes, the run fails
immediately with InvalidAssetCode carrying the offending symbol, with no
Host call, no submitted transaction and the snapshot file untouched. -/
theorem claim_C8_invalid_asset_code (cmd : TokenCmd) (senv : TokenSandboxEnv)
    (renv : TokenRpcEnv) (file : List Byte) (salt : List Byte)
    (hsalt : contract_id_from_str cmd.salt = some salt)
    (hlen : (strBytes cmd.symbol).length > 12) :
    token_create_run cmd senv renv file =
      ⟨.error (.InvalidAssetCode cmd.symbol), file, [], []⟩ := by
  unfold token_create_run
  simp only [hsalt]
  rw [if_pos hlen]

/-- C8 witness: a 13-byte symbol with a well-formed salt fails with
InvalidAssetCode before any interaction. -/
theorem claim_C8_invalid_asset_code_witness :
    token_create_run
      ⟨none, 7, "Name", "ABCDEFGHIJKLM",
       "0000000000000000000000000000000000000000000000000000000000000000", false, ""⟩
      ⟨none, none, none, none⟩ ⟨none, [], none, false, false⟩ [5] =
      ⟨.error (.InvalidAssetCode "ABCDEFGHIJKLM"), [5], [], []⟩ :=
  claim_C8_invalid_asset_code
    ⟨none, 7, "Name", "ABCDEFGHIJKLM",
     "0000000000000000000000000000000000000000000000000000000000000000", false, ""⟩
    ⟨none, none, none, none⟩ ⟨none, [], none, false, false⟩ [5]
    (List.replicate 32 0) (by decide) (by decide)

set_option maxRecDepth 10000 in
/-- C10: with no administrator supplied, the sandbox strategy defaults the
admin to the all-zero account sentinel while the remote strategy defaults
it to the signing key's public key; the two defaults give different
contract-id preimage source accounts, and concretely different ids. -/
theorem claim_C10_admin_defaults :
    (∀ (salt : List Byte) (name symbol : String) (decimal : Nat) (env : TokenSandboxEnv)
       (file : List Byte),
      (token_create_run_in_sandbox salt none name symbol decimal env file).adminUsed =
        ⟨zeroAccount⟩) ∧
    (∀ (salt : List Byte) (name symbol : String) (decimal : Nat)
       (network_passphrase : String) (env : TokenRpcEnv) (key : KeypairM),
      env.keyParse = some key →
      (token_create_run_against_rpc_server salt none name symbol decimal network_passphrase
        env).adminUsed = ⟨key.public⟩) ∧
    get_contract_id (List.replicate 32 0) ⟨zeroAccount⟩ ≠
      get_contract_id (List.replicate 32 0) ⟨1 :: List.replicate 31 0⟩ := by
  refine ⟨?_, ?_, ?_⟩
  · intro salt name symbol decimal env file
    unfold token_create_run_in_sandbox
    simp only []
    repeat' split
    all_goals rfl
  · intro salt name symbol decimal network_passphrase env key hkey
    unfold token_create_run_against_rpc_server
    rw [hkey]
    simp only []
    repeat' split
    all_goals first | rfl | simp_all
  · decide

/-- C10 witness: a concrete admin-less run under each strategy settles on
the all-zero sentinel (sandbox) and on the signer's public key (remote). -/
theorem claim_C10_admin_defaults_witness :
    (token_create_run_in_sandbox (List.replicate 32 0) none "N" "S" 7
        ⟨none, none, none, none⟩ []).adminUsed = ⟨zeroAccount⟩ ∧
    (token_create_run_against_rpc_server (List.replicate 32 0) none "N" "S" 7 "pass"
        ⟨some ⟨[9], [1, 2, 3]⟩, List.replicate 32 7, some 5, true, true⟩).adminUsed =
      ⟨[1, 2, 3]⟩ :=
  ⟨claim_C10_admin_defaults.1 (List.replicate 32 0) "N" "S" 7 ⟨none, none, none, none⟩ [],
   claim_C10_admin_defaults.2.1 (List.replicate 32 0) "N" "S" 7 "pass"
    ⟨some ⟨[9], [1, 2, 3]⟩, List.replicate 32 7, some 5, true, true⟩ ⟨[9], [1, 2, 3]⟩ rfl⟩
